import Mathlib

/-!
Verification development for the icon-placement core of bpmn-visualization
(`src/model/bpmn/shape/ShapeUtil.ts`).

Numeric values (JavaScript `number`) are modelled as rationals `ℚ`; JavaScript
division is total on `ℚ` (division by zero yields 0 instead of IEEE
Infinity/NaN, which no statement below relies on).  JavaScript strings are
modelled as `List Char`, `String.prototype.endsWith` as list-suffix testing and
`String.prototype.toLowerCase` as Unicode Default Case Conversion restricted to
the Basic Latin and Greek letter blocks: the simple one-to-one lowercase
mapping on those blocks plus the context-sensitive Final_Sigma rule
(Σ lowercases to ς in final position, to σ elsewhere).  Characters outside the
modelled blocks are left unchanged and treated as uncased, and no character is
treated as case-ignorable; this is exact on ASCII strings and on the Greek
strings used below.  Truthiness tests on numbers (`if (ratioFromShape)`,
`strokeWidth ? _ : _`) are modelled as `≠ 0`.
-/

/-- Size record `{width, height}` from `render-types`. -/
structure Size where
  width : ℚ
  height : ℚ
deriving DecidableEq

/-- ShapeConfiguration record `{x, y, w, h}`: the target shape bounding box. -/
structure ShapeConfiguration where
  x : ℚ
  y : ℚ
  w : ℚ
  h : ℚ
deriving DecidableEq

/-- IconStyleConfiguration record `{isFilled, strokeColor, fillColor, strokeWidth}`. -/
structure IconStyleConfiguration where
  isFilled : Bool
  strokeColor : String
  fillColor : String
  strokeWidth : ℚ
deriving DecidableEq

/-- IconConfiguration record: natural icon size, style and the optional
`ratioFromShape` (0 models the absent/falsy value, as the constructor tests
truthiness). The `setIconOrigin` callback is modelled by applying one of the
origin-placement operations below after construction. -/
structure IconConfiguration where
  originalSize : Size
  style : IconStyleConfiguration
  ratioFromShape : ℚ
deriving DecidableEq

/-- JS `kind.endsWith(sfx)`: `sfx` is a (case-sensitive) suffix of `kind`. -/
def jsEndsWith (s sfx : List Char) : Bool :=
  sfx.isSuffixOf s

/-- Unicode Cased property restricted to the modelled blocks: ASCII letters and
the Greek letters U+0391..U+03C9; every other character is treated as uncased. -/
def isCased (c : Char) : Bool :=
  c.isAlpha || decide (0x391 ≤ c.toNat ∧ c.toNat ≤ 0x3C9)

/-- Simple (context-free) Unicode lowercase mapping restricted to the modelled
blocks: ASCII upper-case letters and the Greek capitals U+0391..U+03A9 (U+03A2
is unassigned) map down by 0x20; everything else is unchanged. -/
def simpleLower (c : Char) : Char :=
  if 0x391 ≤ c.toNat ∧ c.toNat ≤ 0x3A9 ∧ c.toNat ≠ 0x3A2 then
    Char.ofNat (c.toNat + 0x20)
  else
    Char.toLower c

/-- With no case-ignorable characters modelled, the Final_Sigma look-ahead is:
the next character exists and is cased. -/
def casedLetterFollows : List Char → Bool
  | [] => false
  | c :: _ => isCased c

/-- JS `s.toLowerCase()` over the modelled blocks: simple lowercase mapping plus
the Final_Sigma rule — Σ becomes ς when preceded by a cased letter and not
followed by one, σ otherwise.  `prevCased` records whether the previous
character was cased. -/
def jsToLowerCaseAux : Bool → List Char → List Char
  | _, [] => []
  | prevCased, c :: rest =>
    (if c = 'Σ' then
      (if prevCased && !(casedLetterFollows rest) then 'ς' else 'σ')
    else
      simpleLower c) :: jsToLowerCaseAux (isCased c) rest

/-- JS `s.toLowerCase()`: at the start of the string no cased character
precedes. -/
def toLowerCase (s : List Char) : List Char :=
  jsToLowerCaseAux false s

/-- ASCII-only strings, on which the modelled `toLowerCase` coincides with the
character-wise ASCII lowercase map. -/
def isAsciiString (s : List Char) : Bool :=
  s.all fun c => decide (c.toNat < 128)

namespace ShapeUtil

/-- ShapeUtil.filterKind (ShapeUtil.ts lines 25-32): filter the enumeration
values by suffix, optionally also accepting a lowercase suffix match. -/
def filterKind (kinds : List (List Char)) (sfx : List Char) (ignoreCase : Bool) : List (List Char) :=
  kinds.filter fun kind =>
    if ignoreCase then
      jsEndsWith kind sfx || jsEndsWith (toLowerCase kind) (toLowerCase sfx)
    else
      jsEndsWith kind sfx

/-- ShapeUtil.EVENT_KINDS = filterKind('Event'), parametrised by the enumeration
values (the `ShapeBpmnElementKind` enum lives outside the provided sources). -/
def EVENT_KINDS (kinds : List (List Char)) : List (List Char) :=
  filterKind kinds "Event".data false

/-- ShapeUtil.TASK_KINDS = filterKind('Task', true). -/
def TASK_KINDS (kinds : List (List Char)) : List (List Char) :=
  filterKind kinds "Task".data true

/-- ShapeUtil.GATEWAY_KINDS = filterKind('Gateway'). -/
def GATEWAY_KINDS (kinds : List (List Char)) : List (List Char) :=
  filterKind kinds "Gateway".data false

/-- ShapeUtil.isEvent: membership in EVENT_KINDS. -/
def isEvent (kinds : List (List Char)) (kind : List Char) : Bool :=
  (EVENT_KINDS kinds).contains kind

/-- ShapeUtil.taskKinds(): returns the TASK_KINDS list. -/
def taskKinds (kinds : List (List Char)) : List (List Char) :=
  TASK_KINDS kinds

/-- ShapeUtil.gatewayKinds(): returns the GATEWAY_KINDS list. -/
def gatewayKinds (kinds : List (List Char)) : List (List Char) :=
  GATEWAY_KINDS kinds

/-- Specification-side predicate for claim C10: the purely case-insensitive
filter, a lowercase suffix match with no case-sensitive disjunct. -/
def filterKindLowercase (kinds : List (List Char)) (sfx : List Char) : List (List Char) :=
  kinds.filter fun kind => jsEndsWith (toLowerCase kind) (toLowerCase sfx)

/-- Modelled from the spec: the `ShapeBpmnElementKind` enumeration source file is
not among the provided sources; claim C2 fixes this identifier set as the kind
enumeration, so `Object.values(ShapeBpmnElementKind)` is this list. -/
def shapeBpmnElementKindValues : List (List Char) :=
  ["START_EVENT".data, "END_EVENT".data, "USER_TASK".data, "EXCLUSIVE_GATEWAY".data]

end ShapeUtil

/-- Local `iconWidthProportionalToShape` of computeScaledIconSize
(ShapeUtil.ts lines 79-87): width of the aspect-ratio-preserving fit of the
icon into the shape box. -/
def iconWidthProportionalToShape (initialIconSize : Size) (shapeConfiguration : ShapeConfiguration) : ℚ :=
  if initialIconSize.height < initialIconSize.width ∨
      (initialIconSize.height = initialIconSize.width ∧ shapeConfiguration.w ≤ shapeConfiguration.h) then
    shapeConfiguration.w
  else
    shapeConfiguration.h * initialIconSize.width / initialIconSize.height

/-- Local `iconHeightProportionalToShape` of computeScaledIconSize
(ShapeUtil.ts lines 79-87). -/
def iconHeightProportionalToShape (initialIconSize : Size) (shapeConfiguration : ShapeConfiguration) : ℚ :=
  if initialIconSize.height < initialIconSize.width ∨
      (initialIconSize.height = initialIconSize.width ∧ shapeConfiguration.w ≤ shapeConfiguration.h) then
    shapeConfiguration.w * initialIconSize.height / initialIconSize.width
  else
    shapeConfiguration.h

/-- Local `inset` of computeScaledIconSize (ShapeUtil.ts line 89):
`strokeWidth ? (strokeWidth - 1) * 2 : 0`. -/
def inset (strokeWidth : ℚ) : ℚ :=
  if strokeWidth ≠ 0 then (strokeWidth - 1) * 2 else 0

/-- computeScaledIconSize (ShapeUtil.ts lines 78-93): scale the icon
proportionally to the shape, multiply by `ratioFromShape` and subtract the
stroke-width inset on each axis. -/
def computeScaledIconSize (initialIconSize : Size) (iconStyleConfiguration : IconStyleConfiguration)
    (shapeConfiguration : ShapeConfiguration) (ratioFromShape : ℚ) : Size :=
  { width := iconWidthProportionalToShape initialIconSize shapeConfiguration * ratioFromShape -
      inset iconStyleConfiguration.strokeWidth,
    height := iconHeightProportionalToShape initialIconSize shapeConfiguration * ratioFromShape -
      inset iconStyleConfiguration.strokeWidth }

/-- BpmnCanvas state (ShapeUtil.ts lines 111-121): the wrapped `mxAbstractCanvas2D`
is modelled by the `CanvasOp` emissions of the primitive methods below; the
fields are the numeric state of the wrapper. -/
structure BpmnCanvas where
  shapeConfiguration : ShapeConfiguration
  iconOriginalSize : Size
  scaleX : ℚ
  scaleY : ℚ
  iconPaintingOriginX : ℚ
  iconPaintingOriginY : ℚ
deriving DecidableEq

/-- Calls forwarded to the underlying `mxAbstractCanvas2D` by the
coordinate-bearing primitives of BpmnCanvas. -/
inductive CanvasOp where
  | moveTo (x y : ℚ)
  | lineTo (x y : ℚ)
  | curveTo (x1 y1 x2 y2 x3 y3 : ℚ)
  | arcTo (rx ry angle largeArcFlag sweepFlag x y : ℚ)
  | rect (x y w h : ℚ)
  | roundrect (x y w h dx dy : ℚ)
  | ellipse (x y w h : ℚ)
  | rotate (theta : ℚ) (flipH flipV : Bool) (cx cy : ℚ)
deriving DecidableEq

/-- BpmnCanvas constructor (ShapeUtil.ts lines 123-141): derive the scale
factors from computeScaledIconSize when `ratioFromShape` is truthy, else use 1;
the origin starts at (0, 0) until an origin-placement operation runs (the
`setIconOrigin` callback).  The `updateCanvasStyle` side effect touches only the
wrapped canvas, not this state. -/
def BpmnCanvas.construct (shapeConfiguration : ShapeConfiguration)
    (iconConfiguration : IconConfiguration) : BpmnCanvas :=
  let scales : ℚ × ℚ :=
    if iconConfiguration.ratioFromShape ≠ 0 then
      let scaledIconSize := computeScaledIconSize iconConfiguration.originalSize
        iconConfiguration.style shapeConfiguration iconConfiguration.ratioFromShape
      (scaledIconSize.width / iconConfiguration.originalSize.width,
        scaledIconSize.height / iconConfiguration.originalSize.height)
    else
      (1, 1)
  { shapeConfiguration := shapeConfiguration,
    iconOriginalSize := iconConfiguration.originalSize,
    scaleX := scales.1,
    scaleY := scales.2,
    iconPaintingOriginX := 0,
    iconPaintingOriginY := 0 }

/-- setIconOriginToShapeTopLeftProportionally (ShapeUtil.ts lines 149-153). -/
def BpmnCanvas.setIconOriginToShapeTopLeftProportionally (c : BpmnCanvas)
    (shapeDimensionProportion : ℚ) : BpmnCanvas :=
  { c with
    iconPaintingOriginX := c.shapeConfiguration.x + c.shapeConfiguration.w / shapeDimensionProportion,
    iconPaintingOriginY := c.shapeConfiguration.y + c.shapeConfiguration.h / shapeDimensionProportion }

/-- setIconOriginToShapeTopLeft (ShapeUtil.ts lines 158-162). -/
def BpmnCanvas.setIconOriginToShapeTopLeft (c : BpmnCanvas) (topMargin leftMargin : ℚ) : BpmnCanvas :=
  { c with
    iconPaintingOriginX := c.shapeConfiguration.x + leftMargin,
    iconPaintingOriginY := c.shapeConfiguration.y + topMargin }

/-- setIconOriginForIconCentered (ShapeUtil.ts lines 167-171). -/
def BpmnCanvas.setIconOriginForIconCentered (c : BpmnCanvas) : BpmnCanvas :=
  { c with
    iconPaintingOriginX := c.shapeConfiguration.x +
      (c.shapeConfiguration.w - c.iconOriginalSize.width * c.scaleX) / 2,
    iconPaintingOriginY := c.shapeConfiguration.y +
      (c.shapeConfiguration.h - c.iconOriginalSize.height * c.scaleY) / 2 }

/-- setIconOriginForIconBottomCentered (ShapeUtil.ts lines 176-180). -/
def BpmnCanvas.setIconOriginForIconBottomCentered (c : BpmnCanvas) (bottomMargin : ℚ) : BpmnCanvas :=
  { c with
    iconPaintingOriginX := c.shapeConfiguration.x +
      (c.shapeConfiguration.w - c.iconOriginalSize.width * c.scaleX) / 2,
    iconPaintingOriginY := c.shapeConfiguration.y +
      (c.shapeConfiguration.h - c.iconOriginalSize.height * c.scaleY - bottomMargin) }

/-- setIconOriginForIconOnBottomLeft (ShapeUtil.ts lines 185-192). -/
def BpmnCanvas.setIconOriginForIconOnBottomLeft (c : BpmnCanvas)
    (bottomMargin fromCenterMargin : ℚ) : BpmnCanvas :=
  { c with
    iconPaintingOriginX := c.shapeConfiguration.x +
      (c.shapeConfiguration.w - c.iconOriginalSize.width * c.scaleX) / 3 - fromCenterMargin,
    iconPaintingOriginY := c.shapeConfiguration.y +
      (c.shapeConfiguration.h - c.iconOriginalSize.height * c.scaleY - bottomMargin) }

/-- translateIconOrigin (ShapeUtil.ts lines 202-205): the translation delta is
scaled before being added to the origin. -/
def BpmnCanvas.translateIconOrigin (c : BpmnCanvas) (dx dy : ℚ) : BpmnCanvas :=
  { c with
    iconPaintingOriginX := c.iconPaintingOriginX + c.scaleX * dx,
    iconPaintingOriginY := c.iconPaintingOriginY + c.scaleY * dy }

/-- computeScaleFromOriginX (ShapeUtil.ts lines 207-209). -/
def BpmnCanvas.computeScaleFromOriginX (c : BpmnCanvas) (x : ℚ) : ℚ :=
  c.iconPaintingOriginX + x * c.scaleX

/-- computeScaleFromOriginY (ShapeUtil.ts lines 211-213). -/
def BpmnCanvas.computeScaleFromOriginY (c : BpmnCanvas) (y : ℚ) : ℚ :=
  c.iconPaintingOriginY + y * c.scaleY

/-- BpmnCanvas.moveTo (ShapeUtil.ts lines 272-274): the call emitted to the
underlying canvas.  Primitive methods assign no field of the wrapper, so they
are observers returning the forwarded call. -/
def BpmnCanvas.moveTo (c : BpmnCanvas) (x y : ℚ) : CanvasOp :=
  .moveTo (c.computeScaleFromOriginX x) (c.computeScaleFromOriginY y)

/-- BpmnCanvas.lineTo (ShapeUtil.ts lines 268-270). -/
def BpmnCanvas.lineTo (c : BpmnCanvas) (x y : ℚ) : CanvasOp :=
  .lineTo (c.computeScaleFromOriginX x) (c.computeScaleFromOriginY y)

/-- BpmnCanvas.curveTo (ShapeUtil.ts lines 237-246). -/
def BpmnCanvas.curveTo (c : BpmnCanvas) (x1 y1 x2 y2 x3 y3 : ℚ) : CanvasOp :=
  .curveTo (c.computeScaleFromOriginX x1) (c.computeScaleFromOriginY y1)
    (c.computeScaleFromOriginX x2) (c.computeScaleFromOriginY y2)
    (c.computeScaleFromOriginX x3) (c.computeScaleFromOriginY y3)

/-- BpmnCanvas.arcTo (ShapeUtil.ts lines 225-227). -/
def BpmnCanvas.arcTo (c : BpmnCanvas) (rx ry angle largeArcFlag sweepFlag x y : ℚ) : CanvasOp :=
  .arcTo (rx * c.scaleX) (ry * c.scaleY) angle largeArcFlag sweepFlag
    (c.computeScaleFromOriginX x) (c.computeScaleFromOriginY y)

/-- BpmnCanvas.rect (ShapeUtil.ts lines 276-278). -/
def BpmnCanvas.rect (c : BpmnCanvas) (x y w h : ℚ) : CanvasOp :=
  .rect (c.computeScaleFromOriginX x) (c.computeScaleFromOriginY y) (w * c.scaleX) (h * c.scaleY)

/-- BpmnCanvas.roundrect (ShapeUtil.ts lines 280-282). -/
def BpmnCanvas.roundrect (c : BpmnCanvas) (x y w h dx dy : ℚ) : CanvasOp :=
  .roundrect (c.computeScaleFromOriginX x) (c.computeScaleFromOriginY y)
    (w * c.scaleX) (h * c.scaleY) dx dy

/-- BpmnCanvas.ellipse (ShapeUtil.ts lines 284-286). -/
def BpmnCanvas.ellipse (c : BpmnCanvas) (x y w h : ℚ) : CanvasOp :=
  .ellipse (c.computeScaleFromOriginX x) (c.computeScaleFromOriginY y) (w * c.scaleX) (h * c.scaleY)

/-- BpmnCanvas.rotate (ShapeUtil.ts lines 291-293): the rotation center (cx, cy)
is added to the origin without scaling. -/
def BpmnCanvas.rotate (c : BpmnCanvas) (theta : ℚ) (flipH flipV : Bool) (cx cy : ℚ) : CanvasOp :=
  .rotate theta flipH flipV (c.iconPaintingOriginX + cx) (c.iconPaintingOriginY + cy)

/-- Frame predicate for claim C8: every field of the wrapper except the origin
point is unchanged. -/
def PreservesAllButOrigin (c d : BpmnCanvas) : Prop :=
  d.scaleX = c.scaleX ∧ d.scaleY = c.scaleY ∧
  d.shapeConfiguration = c.shapeConfiguration ∧ d.iconOriginalSize = c.iconOriginalSize

theorem inset_eq_zero_of (sw : ℚ) (h : sw = 0 ∨ sw = 1) : inset sw = 0 := by
  rcases h with h | h <;> simp [inset, h]

theorem inset_nonneg_of (sw : ℚ) (h : sw = 0 ∨ 1 ≤ sw) : 0 ≤ inset sw := by
  rcases h with h | h
  · simp [inset, h]
  · have hne : sw ≠ 0 := by intro h0; rw [h0] at h; norm_num at h
    simp only [inset, if_pos hne]
    linarith

theorem proportional_div_eq (s : Size) (sh : ShapeConfiguration)
    (hw : 0 < s.width) (hh : 0 < s.height) :
    iconWidthProportionalToShape s sh / s.width = iconHeightProportionalToShape s sh / s.height := by
  by_cases hc : s.height < s.width ∨ (s.height = s.width ∧ sh.w ≤ sh.h)
  · simp only [iconWidthProportionalToShape, iconHeightProportionalToShape, if_pos hc]
    field_simp
    ring
  · simp only [iconWidthProportionalToShape, iconHeightProportionalToShape, if_neg hc]
    field_simp
    ring

/-- C5: the inset equals (strokeWidth − 1) × 2 for truthy strokeWidth and 0
otherwise, and computeScaledIconSize subtracts it from each axis after the
multiplication by ratioFromShape; strokeWidth 1 gives inset 0 and strokeWidth 3
gives inset 4. -/
theorem computeScaledIconSize_inset_subtracted (s : Size) (st : IconStyleConfiguration)
    (sh : ShapeConfiguration) (r : ℚ) :
    inset st.strokeWidth = (if st.strokeWidth ≠ 0 then (st.strokeWidth - 1) * 2 else 0) ∧
    (computeScaledIconSize s st sh r).width =
      iconWidthProportionalToShape s sh * r - inset st.strokeWidth ∧
    (computeScaledIconSize s st sh r).height =
      iconHeightProportionalToShape s sh * r - inset st.strokeWidth ∧
    inset 1 = 0 ∧ inset 3 = 4 := by
  refine ⟨rfl, rfl, rfl, by norm_num [inset], by norm_num [inset]⟩

/-- C6: rotate forwards a center of exactly (originX + cx, originY + cy) to the
underlying canvas, and the emitted call does not depend on the scale factors at
all: changing scaleX/scaleY leaves it unchanged. -/
theorem rotate_center_unscaled (c : BpmnCanvas) (theta : ℚ) (flipH flipV : Bool)
    (cx cy a b : ℚ) :
    c.rotate theta flipH flipV cx cy =
      CanvasOp.rotate theta flipH flipV (c.iconPaintingOriginX + cx) (c.iconPaintingOriginY + cy) ∧
    ({ c with scaleX := a, scaleY := b } : BpmnCanvas).rotate theta flipH flipV cx cy =
      c.rotate theta flipH flipV cx cy := by
  exact ⟨rfl, rfl⟩

/-- C7: translateIconOrigin moves the origin by exactly (scaleX·dx, scaleY·dy),
and a primitive called at icon-local (x, y) after the translation emits the
same coordinates as the primitive called at (x + dx, y + dy) before it. -/
theorem translateIconOrigin_scaled_delta (c : BpmnCanvas) (dx dy x y : ℚ) :
    (c.translateIconOrigin dx dy).iconPaintingOriginX = c.iconPaintingOriginX + c.scaleX * dx ∧
    (c.translateIconOrigin dx dy).iconPaintingOriginY = c.iconPaintingOriginY + c.scaleY * dy ∧
    (c.translateIconOrigin dx dy).moveTo x y = c.moveTo (x + dx) (y + dy) := by
  refine ⟨rfl, rfl, ?_⟩
  simp only [BpmnCanvas.moveTo, BpmnCanvas.translateIconOrigin,
    BpmnCanvas.computeScaleFromOriginX, BpmnCanvas.computeScaleFromOriginY, CanvasOp.moveTo.injEq]
  constructor <;> ring

/-- C8: the scale factors (and the shape configuration and the icon natural
size) are fixed at construction: every origin-placement operation and
translateIconOrigin changes only the origin point, and the drawing primitives
are observers of the state (they return the forwarded call and assign nothing). -/
theorem scale_factors_frame (c : BpmnCanvas) (p tM lM bM fM dx dy : ℚ) :
    PreservesAllButOrigin c (c.setIconOriginToShapeTopLeftProportionally p) ∧
    PreservesAllButOrigin c (c.setIconOriginToShapeTopLeft tM lM) ∧
    PreservesAllButOrigin c c.setIconOriginForIconCentered ∧
    PreservesAllButOrigin c (c.setIconOriginForIconBottomCentered bM) ∧
    PreservesAllButOrigin c (c.setIconOriginForIconOnBottomLeft bM fM) ∧
    PreservesAllButOrigin c (c.translateIconOrigin dx dy) := by
  exact ⟨⟨rfl, rfl, rfl, rfl⟩, ⟨rfl, rfl, rfl, rfl⟩, ⟨rfl, rfl, rfl, rfl⟩,
    ⟨rfl, rfl, rfl, rfl⟩, ⟨rfl, rfl, rfl, rfl⟩, ⟨rfl, rfl, rfl, rfl⟩⟩

/-- C9: computeScaledIconSize reads only w and h from the shape configuration:
two shapes agreeing on w and h (and arbitrary x, y) give equal results. -/
theorem computeScaledIconSize_ignores_position (s : Size) (st : IconStyleConfiguration)
    (s1 s2 : ShapeConfiguration) (r : ℚ) (hw : s1.w = s2.w) (hh : s1.h = s2.h) :
    computeScaledIconSize s st s1 r = computeScaledIconSize s st s2 r := by
  simp only [computeScaledIconSize, iconWidthProportionalToShape,
    iconHeightProportionalToShape, hw, hh]

/-- C9 witness: the fitted size at shape (0, 0, 30, 20) equals the fitted size
at shape (100, 200, 30, 20). -/
theorem computeScaledIconSize_ignores_position_witness :
    computeScaledIconSize ⟨5, 7⟩ ⟨true, "", "", 2⟩ ⟨0, 0, 30, 20⟩ (1 / 2) =
      computeScaledIconSize ⟨5, 7⟩ ⟨true, "", "", 2⟩ ⟨100, 200, 30, 20⟩ (1 / 2) :=
  computeScaledIconSize_ignores_position ⟨5, 7⟩ ⟨true, "", "", 2⟩ ⟨0, 0, 30, 20⟩
    ⟨100, 200, 30, 20⟩ (1 / 2) rfl rfl

/-- C1 counterexample: for icon 100×50, shape (0, 0, 40, 40), ratioFromShape 1
and strokeWidth 3 the constructor computes scaleX = 36/100 = 9/25 but
scaleY = 16/50 = 8/25: the inset is subtracted from each axis independently and
breaks the aspect ratio, far beyond floating-point tolerance. -/
theorem construct_scaleX_ne_scaleY :
    (BpmnCanvas.construct ⟨0, 0, 40, 40⟩ ⟨⟨100, 50⟩, ⟨false, "", "", 3⟩, 1⟩).scaleX = 9 / 25 ∧
    (BpmnCanvas.construct ⟨0, 0, 40, 40⟩ ⟨⟨100, 50⟩, ⟨false, "", "", 3⟩, 1⟩).scaleY = 8 / 25 ∧
    (BpmnCanvas.construct ⟨0, 0, 40, 40⟩ ⟨⟨100, 50⟩, ⟨false, "", "", 3⟩, 1⟩).scaleX ≠
      (BpmnCanvas.construct ⟨0, 0, 40, 40⟩ ⟨⟨100, 50⟩, ⟨false, "", "", 3⟩, 1⟩).scaleY := by
  refine ⟨?_, ?_, ?_⟩ <;>
    norm_num [BpmnCanvas.construct, computeScaledIconSize, iconWidthProportionalToShape,
      iconHeightProportionalToShape, inset]

/-- C1 (amended): whenever the stroke-width inset vanishes (strokeWidth 0, the
falsy case, or strokeWidth 1) and both natural icon dimensions are positive,
the fitted size preserves the aspect ratio exactly —
fittedWidth/naturalWidth = fittedHeight/naturalHeight — and the constructor
computes scaleX = scaleY. -/
theorem aspect_ratio_preserved_of_inset_zero (s : Size) (st : IconStyleConfiguration)
    (sh : ShapeConfiguration) (r : ℚ) (hw : 0 < s.width) (hh : 0 < s.height)
    (hsw : st.strokeWidth = 0 ∨ st.strokeWidth = 1) :
    (computeScaledIconSize s st sh r).width / s.width =
      (computeScaledIconSize s st sh r).height / s.height ∧
    (BpmnCanvas.construct sh ⟨s, st, r⟩).scaleX = (BpmnCanvas.construct sh ⟨s, st, r⟩).scaleY := by
  have h0 : inset st.strokeWidth = 0 := inset_eq_zero_of _ hsw
  have key : (computeScaledIconSize s st sh r).width / s.width =
      (computeScaledIconSize s st sh r).height / s.height := by
    simp only [computeScaledIconSize, h0, sub_zero]
    calc iconWidthProportionalToShape s sh * r / s.width
        = iconWidthProportionalToShape s sh / s.width * r := by ring
      _ = iconHeightProportionalToShape s sh / s.height * r := by
          rw [proportional_div_eq s sh hw hh]
      _ = iconHeightProportionalToShape s sh * r / s.height := by ring
  refine ⟨key, ?_⟩
  by_cases hr : r = 0
  · simp [BpmnCanvas.construct, hr]
  · simpa [BpmnCanvas.construct, hr] using key

/-- C1 (amended) witness: icon 100×50, shape (0, 0, 40, 40), strokeWidth 1,
ratioFromShape 1. -/
theorem aspect_ratio_preserved_of_inset_zero_witness :
    (computeScaledIconSize ⟨100, 50⟩ ⟨false, "", "", 1⟩ ⟨0, 0, 40, 40⟩ 1).width /
        (Size.mk 100 50).width =
      (computeScaledIconSize ⟨100, 50⟩ ⟨false, "", "", 1⟩ ⟨0, 0, 40, 40⟩ 1).height /
        (Size.mk 100 50).height ∧
    (BpmnCanvas.construct ⟨0, 0, 40, 40⟩ ⟨⟨100, 50⟩, ⟨false, "", "", 1⟩, 1⟩).scaleX =
      (BpmnCanvas.construct ⟨0, 0, 40, 40⟩ ⟨⟨100, 50⟩, ⟨false, "", "", 1⟩, 1⟩).scaleY :=
  aspect_ratio_preserved_of_inset_zero ⟨100, 50⟩ ⟨false, "", "", 1⟩ ⟨0, 0, 40, 40⟩ 1
    (by norm_num) (by norm_num) (Or.inr rfl)

/-- C3 counterexample: strokeWidth 1/2 is truthy, so the inset is
(1/2 − 1) × 2 = −1 and subtracting it grows the final size: for a 1×1 icon in a
1×1 shape with ratioFromShape 1 the final width is 2, above the proportional
width × ratio of 1. -/
theorem inset_grows_for_fractional_strokeWidth :
    ¬ ((computeScaledIconSize ⟨1, 1⟩ ⟨false, "", "", 1 / 2⟩ ⟨0, 0, 1, 1⟩ 1).width ≤
        iconWidthProportionalToShape ⟨1, 1⟩ ⟨0, 0, 1, 1⟩ * 1) := by
  norm_num [computeScaledIconSize, iconWidthProportionalToShape, inset]

/-- C3 (amended): when strokeWidth is 0 (falsy) or at least 1, the inset is
nonnegative, so on each axis the final size is at most the proportional size
multiplied by ratioFromShape. -/
theorem computeScaledIconSize_le_proportional (s : Size) (st : IconStyleConfiguration)
    (sh : ShapeConfiguration) (r : ℚ) (hsw : st.strokeWidth = 0 ∨ 1 ≤ st.strokeWidth) :
    (computeScaledIconSize s st sh r).width ≤ iconWidthProportionalToShape s sh * r ∧
    (computeScaledIconSize s st sh r).height ≤ iconHeightProportionalToShape s sh * r := by
  have h0 : 0 ≤ inset st.strokeWidth := inset_nonneg_of _ hsw
  constructor
  · simp only [computeScaledIconSize]
    linarith
  · simp only [computeScaledIconSize]
    linarith

/-- C3 (amended) witness: icon 2×1, strokeWidth 3, shape (0, 0, 10, 10),
ratioFromShape 1. -/
theorem computeScaledIconSize_le_proportional_witness :
    (computeScaledIconSize ⟨2, 1⟩ ⟨false, "", "", 3⟩ ⟨0, 0, 10, 10⟩ 1).width ≤
      iconWidthProportionalToShape ⟨2, 1⟩ ⟨0, 0, 10, 10⟩ * 1 ∧
    (computeScaledIconSize ⟨2, 1⟩ ⟨false, "", "", 3⟩ ⟨0, 0, 10, 10⟩ 1).height ≤
      iconHeightProportionalToShape ⟨2, 1⟩ ⟨0, 0, 10, 10⟩ * 1 :=
  computeScaledIconSize_le_proportional ⟨2, 1⟩ ⟨false, "", "", 3⟩ ⟨0, 0, 10, 10⟩ 1
    (Or.inr (by norm_num))

/-- C4: for a square icon, computeScaledIconSize fits to the shape's width
(proportional width shape.w, proportional height shape.w · iconHeight/iconWidth)
when shape.w ≤ shape.h, and fits to the shape's height (proportional height
shape.h, proportional width shape.h · iconWidth/iconHeight) when
shape.w > shape.h. -/
theorem square_icon_tie_break (s : Size) (st : IconStyleConfiguration)
    (sh : ShapeConfiguration) (r : ℚ) (hsq : s.height = s.width) :
    (sh.w ≤ sh.h →
      computeScaledIconSize s st sh r =
        ⟨sh.w * r - inset st.strokeWidth,
          sh.w * s.height / s.width * r - inset st.strokeWidth⟩) ∧
    (sh.h < sh.w →
      computeScaledIconSize s st sh r =
        ⟨sh.h * s.width / s.height * r - inset st.strokeWidth,
          sh.h * r - inset st.strokeWidth⟩) := by
  constructor
  · intro hle
    have hc : s.height < s.width ∨ (s.height = s.width ∧ sh.w ≤ sh.h) := Or.inr ⟨hsq, hle⟩
    simp only [computeScaledIconSize, iconWidthProportionalToShape,
      iconHeightProportionalToShape, if_pos hc]
  · intro hlt
    have hc : ¬(s.height < s.width ∨ (s.height = s.width ∧ sh.w ≤ sh.h)) := by
      push_neg
      exact ⟨ge_of_eq hsq, fun _ => hlt⟩
    simp only [computeScaledIconSize, iconWidthProportionalToShape,
      iconHeightProportionalToShape, if_neg hc]

/-- C4 witness: square icon 4×4, shape (0, 0, 2, 3) with w ≤ h, strokeWidth 1,
ratioFromShape 1: the fit uses the shape's width. -/
theorem square_icon_tie_break_witness :
    computeScaledIconSize ⟨4, 4⟩ ⟨false, "", "", 1⟩ ⟨0, 0, 2, 3⟩ 1 =
      ⟨(2 : ℚ) * 1 - inset 1, 2 * 4 / 4 * 1 - inset 1⟩ :=
  (square_icon_tie_break ⟨4, 4⟩ ⟨false, "", "", 1⟩ ⟨0, 0, 2, 3⟩ 1 rfl).1 (by norm_num)

/-- C2 counterexample: with the identifier set of the claim as the kind
enumeration, isEvent("START_EVENT") is false, not true: `endsWith('Event')` is
case-sensitive and "START_EVENT" ends with "EVENT", so EVENT_KINDS is empty. -/
theorem isEvent_START_EVENT_false :
    ShapeUtil.isEvent ShapeUtil.shapeBpmnElementKindValues "START_EVENT".data = false := by
  rfl

/-- C2 (amended): for the identifier set {START_EVENT, END_EVENT, USER_TASK,
EXCLUSIVE_GATEWAY}, the case-sensitive Event suffix matches no identifier, so
EVENT_KINDS is empty and isEvent returns false for all four identifiers, while
the case-insensitive Task match makes taskKinds() return exactly USER_TASK. -/
theorem kind_classification_on_upper_snake_identifiers :
    ShapeUtil.EVENT_KINDS ShapeUtil.shapeBpmnElementKindValues = [] ∧
    ShapeUtil.isEvent ShapeUtil.shapeBpmnElementKindValues "START_EVENT".data = false ∧
    ShapeUtil.isEvent ShapeUtil.shapeBpmnElementKindValues "END_EVENT".data = false ∧
    ShapeUtil.isEvent ShapeUtil.shapeBpmnElementKindValues "USER_TASK".data = false ∧
    ShapeUtil.isEvent ShapeUtil.shapeBpmnElementKindValues "EXCLUSIVE_GATEWAY".data = false ∧
    ShapeUtil.taskKinds ShapeUtil.shapeBpmnElementKindValues = ["USER_TASK".data] := by
  refine ⟨rfl, rfl, rfl, rfl, rfl, rfl⟩

theorem jsToLowerCaseAux_ascii (b : Bool) (s : List Char)
    (h : isAsciiString s = true) :
    jsToLowerCaseAux b s = s.map Char.toLower := by
  induction s generalizing b with
  | nil => rfl
  | cons c rest ih =>
    rw [isAsciiString, List.all_cons, Bool.and_eq_true] at h
    have hc : c.toNat < 128 := of_decide_eq_true h.1
    have hns : ¬(c = 'Σ') := by
      intro he
      rw [he] at hc
      exact absurd hc (by decide)
    have hng : ¬(0x391 ≤ c.toNat ∧ c.toNat ≤ 0x3A9 ∧ c.toNat ≠ 0x3A2) := by
      rintro ⟨h1, -, -⟩
      omega
    simp only [jsToLowerCaseAux, if_neg hns, simpleLower, if_neg hng, List.map_cons,
      List.cons.injEq]
    exact ⟨trivial, ih (isCased c) h.2⟩

theorem toLowerCase_ascii (s : List Char) (h : isAsciiString s = true) :
    toLowerCase s = s.map Char.toLower :=
  jsToLowerCaseAux_ascii false s h

theorem jsEndsWith_toLowerCase_of_ascii (k sfx : List Char)
    (hk : isAsciiString k = true) (hs : isAsciiString sfx = true)
    (h : jsEndsWith k sfx = true) :
    jsEndsWith (toLowerCase k) (toLowerCase sfx) = true := by
  rw [toLowerCase_ascii k hk, toLowerCase_ascii sfx hs]
  have hsuf : sfx <:+ k := List.isSuffixOf_iff_suffix.mp h
  obtain ⟨t, rfl⟩ := hsuf
  refine List.isSuffixOf_iff_suffix.mpr ?_
  exact ⟨t.map Char.toLower, by simp⟩

/-- C10 counterexample: over full JS toLowerCase semantics the case-sensitive
disjunct is not redundant.  With kind "ΑΣ" and suffix "Σ" the exact suffix
match holds, but toLowerCase turns the final Σ of the kind into ς (Final_Sigma)
while the lone Σ of the suffix becomes σ, so the lowercase match fails: the
disjunction is true where the lowercase match alone is false, and filterKind
with ignoreCase keeps "ΑΣ" while the pure lowercase filter drops it. -/
theorem filterKind_final_sigma_counterexample :
    jsEndsWith "ΑΣ".data "Σ".data = true ∧
    jsEndsWith (toLowerCase "ΑΣ".data) (toLowerCase "Σ".data) = false ∧
    ((jsEndsWith "ΑΣ".data "Σ".data ||
        jsEndsWith (toLowerCase "ΑΣ".data) (toLowerCase "Σ".data)) ≠
      jsEndsWith (toLowerCase "ΑΣ".data) (toLowerCase "Σ".data)) ∧
    ShapeUtil.filterKind ["ΑΣ".data] "Σ".data true ≠
      ShapeUtil.filterKindLowercase ["ΑΣ".data] "Σ".data := by
  refine ⟨rfl, rfl, by decide, by decide⟩

/-- C10 (amended): in filterKind with ignoreCase the case-sensitive disjunct is
redundant for ASCII kind and suffix strings (all BPMN kind identifiers are
ASCII): on ASCII strings lowercasing is character-wise, an exact suffix match
implies a lowercase one, so the disjunction equals the lowercase match alone
and the case-insensitive filter is exactly a lowercase suffix match. -/
theorem filterKind_ignoreCase_is_lowercase_match_ascii (kinds : List (List Char))
    (kind sfx : List Char) (hkind : isAsciiString kind = true)
    (hsfx : isAsciiString sfx = true)
    (hkinds : ∀ k ∈ kinds, isAsciiString k = true) :
    ((jsEndsWith kind sfx || jsEndsWith (toLowerCase kind) (toLowerCase sfx)) =
      jsEndsWith (toLowerCase kind) (toLowerCase sfx)) ∧
    ShapeUtil.filterKind kinds sfx true = ShapeUtil.filterKindLowercase kinds sfx := by
  have hpred : ∀ k : List Char, isAsciiString k = true →
      (jsEndsWith k sfx || jsEndsWith (toLowerCase k) (toLowerCase sfx)) =
        jsEndsWith (toLowerCase k) (toLowerCase sfx) := by
    intro k hka
    cases hb : jsEndsWith k sfx
    · simp
    · simp [jsEndsWith_toLowerCase_of_ascii k sfx hka hsfx hb]
  refine ⟨hpred kind hkind, ?_⟩
  rw [ShapeUtil.filterKind, ShapeUtil.filterKindLowercase]
  refine List.filter_congr fun k hk => ?_
  simpa using hpred k (hkinds k hk)

/-- C10 (amended) witness: the four upper-snake identifiers and the suffix
"Task" are ASCII, and on them the ignoreCase filter equals the pure lowercase
filter. -/
theorem filterKind_ignoreCase_is_lowercase_match_ascii_witness :
    ((jsEndsWith "USER_TASK".data "Task".data ||
        jsEndsWith (toLowerCase "USER_TASK".data) (toLowerCase "Task".data)) =
      jsEndsWith (toLowerCase "USER_TASK".data) (toLowerCase "Task".data)) ∧
    ShapeUtil.filterKind ShapeUtil.shapeBpmnElementKindValues "Task".data true =
      ShapeUtil.filterKindLowercase ShapeUtil.shapeBpmnElementKindValues "Task".data :=
  filterKind_ignoreCase_is_lowercase_match_ascii ShapeUtil.shapeBpmnElementKindValues
    "USER_TASK".data "Task".data (by decide) (by decide) (by decide)
